import Mathlib

/-!
Verification development for the ulog asynchronous logger.

The definitions below are a shallow embedding of the logger's current
implementation, translated from `include/ulog/Logger.h` and the Logger
translation unit (`Logger::rotate_files`, `Logger::maybe_rotate_sink`,
`Logger::init_internal`, `Logger::shutdown_internal`,
`Logger::flush_once_batch`, and the `json_mode_emit` lambda).
Byte strings are modelled as `List Char`, each `Char` standing for one
byte (all byte values 0..255 are valid unicode scalars).  File
descriptors are `Nat` (stdout is 1).  The external environment (the
`open` and `isatty` syscalls) is a pure parameter.  The MPMC ring and
the mutex-guarded fallback queue live in an external runtime library;
they are modelled by their contracts (a bounded FIFO whose
`try_enqueue` succeeds exactly when a slot is free, and an unbounded
FIFO), which is what the logger code relies on.
-/

namespace Ulog

/-- Severity levels, from `enum class Level` in `Logger.h` (7 variants). -/
inductive Level where
  | Trace
  | Debug
  | Info
  | Warn
  | Error
  | Critical
  | Fatal
deriving DecidableEq

/-- First character of `level_name(lvl)` (`"T", "D", "I", "W", "E", "C", "F"`). -/
def levelChar : Level → Char
  | .Trace => 'T'
  | .Debug => 'D'
  | .Info => 'I'
  | .Warn => 'W'
  | .Error => 'E'
  | .Critical => 'C'
  | .Fatal => 'F'

/-- Record type `struct LogEntry` from `Logger.h`: timestamp (ms), thread id, level,
message bytes. -/
structure LogEntry where
  ts_ms : Nat
  thread_id : Nat
  level : Level
  msg : List Char
deriving DecidableEq

/-- Bound `Logger::kMaxLogLineBytes = 64 * 1024`. -/
def kMaxLogLineBytes : Nat := 64 * 1024

/-- The backward scan of `Logger::utf8_safe_size`: starting at index `i`,
step left while the byte at the current index is a UTF-8 continuation
byte (`(data[i] & 0xC0) == 0x80`) and the index is positive; returns the
final index. -/
def utf8Backoff (data : List Char) : Nat → Nat
  | 0 => 0
  | i + 1 =>
    if (data.getD (i + 1) (Char.ofNat 0)).toNat &&& 0xC0 = 0x80 then utf8Backoff data i
    else i + 1

/-- Function `Logger::utf8_safe_size(data, len, max_bytes)` with `len = data.length`:
`i := min len max_bytes; if i == 0 return 0; i--;
while (i > 0 && (data[i] & 0xC0) == 0x80) --i; return i + 1`. -/
def utf8SafeSize (data : List Char) (maxBytes : Nat) : Nat :=
  let i := min data.length maxBytes
  if i = 0 then 0 else utf8Backoff data (i - 1) + 1

/-- The message stored into `LogEntry::msg` by `enqueue_with_overflow`:
`entry.msg.assign(msg_data, msg_data + utf8_safe_size(msg_data, msg_len,
kMaxLogLineBytes))`. -/
def storedMsg (msg : List Char) : List Char :=
  msg.take (utf8SafeSize msg kMaxLogLineBytes)

/-- A byte is a UTF-8 continuation byte (`0x80..0xBF`). -/
def utf8Cont (c : Char) : Bool := c.toNat &&& 0xC0 = 0x80

/-- Standard UTF-8 validity of a byte sequence (RFC 3629 table): used to
check invariant I1 of the spec against the code. -/
def utf8Valid : List Char → Bool
  | [] => true
  | c :: rest =>
    if c.toNat ≤ 0x7F then utf8Valid rest
    else if 0xC2 ≤ c.toNat ∧ c.toNat ≤ 0xDF then
      match rest with
      | c1 :: r => utf8Cont c1 && utf8Valid r
      | [] => false
    else if c.toNat = 0xE0 then
      match rest with
      | c1 :: c2 :: r =>
        (0xA0 ≤ c1.toNat && c1.toNat ≤ 0xBF) && utf8Cont c2 && utf8Valid r
      | _ => false
    else if (0xE1 ≤ c.toNat ∧ c.toNat ≤ 0xEC) ∨ c.toNat = 0xEE ∨ c.toNat = 0xEF then
      match rest with
      | c1 :: c2 :: r => utf8Cont c1 && utf8Cont c2 && utf8Valid r
      | _ => false
    else if c.toNat = 0xED then
      match rest with
      | c1 :: c2 :: r =>
        (0x80 ≤ c1.toNat && c1.toNat ≤ 0x9F) && utf8Cont c2 && utf8Valid r
      | _ => false
    else if c.toNat = 0xF0 then
      match rest with
      | c1 :: c2 :: c3 :: r =>
        (0x90 ≤ c1.toNat && c1.toNat ≤ 0xBF) && utf8Cont c2 && utf8Cont c3 && utf8Valid r
      | _ => false
    else if 0xF1 ≤ c.toNat ∧ c.toNat ≤ 0xF3 then
      match rest with
      | c1 :: c2 :: c3 :: r => utf8Cont c1 && utf8Cont c2 && utf8Cont c3 && utf8Valid r
      | _ => false
    else if c.toNat = 0xF4 then
      match rest with
      | c1 :: c2 :: c3 :: r =>
        (0x80 ≤ c1.toNat && c1.toNat ≤ 0x8F) && utf8Cont c2 && utf8Cont c3 && utf8Valid r
      | _ => false
    else false

/-- The digit test of `fmt_build`'s index parser: `*p >= '0' && *p <= '9'`. -/
def isDigitChar (c : Char) : Bool := 48 ≤ c.toNat && c.toNat ≤ 57

/-- One step of the index accumulation in `fmt_build`:
`idx = idx * 10 + (*p - '0')` on a `size_t` (arithmetic modulo 2^64). -/
def fmtStep (acc : Nat) (c : Char) : Nat := (acc * 10 + (c.toNat - 48)) % 2 ^ 64

/-- Value of a digit run as `fmt_build` parses it (left fold of `fmtStep`
from 0). -/
def digitsVal (ds : List Char) : Nat := ds.foldl fmtStep 0

/-- Output of a placeholder in `fmt_build`: `append_arg_at(out, tup, want)`
renders the argument when `want` is in range (arguments are modelled as
already-rendered byte strings); otherwise the fallback emits `'{'`, the
parsed index via `snprintf("%zu", idx)` when an explicit index was
present, and `'}'`. -/
def emitPlaceholder (args : List (List Char)) (want : Nat) (hasIdx : Bool) (idx : Nat) :
    List Char :=
  if want < args.length then args.getD want []
  else '\x7b' :: ((if hasIdx then (Nat.repr idx).data else []) ++ ['\x7d'])

/-- Scanner state of `fmt_build`'s pointer loop: scanning literal text,
just after an unescaped `'{'`, or inside a digit run (carrying the raw
digit characters, for the literal fallback, and their parsed value). -/
inductive FmtMode where
  | lit
  | afterBrace
  | inIdx (raw : List Char) (idx : Nat)

/-- The pointer loop of `fmt_build`, driven one character at a time.
Literal chunks (`append_literal`) are emitted char by char; the
`p = brace + 1` rescan on a failed placeholder is realized by emitting
`'{'` and the consumed digits literally and re-examining the failing
character. -/
def fmtGo : List Char → FmtMode → List (List Char) → Nat → List Char
  | [], .lit, _, _ => []
  | [], .afterBrace, _, _ => ['\x7b']
  | [], .inIdx raw _, _, _ => '\x7b' :: raw
  | c :: rest, .lit, args, seq =>
    if c = '\x7b' then fmtGo rest .afterBrace args seq
    else c :: fmtGo rest .lit args seq
  | c :: rest, .afterBrace, args, seq =>
    if c = '\x7b' then '\x7b' :: fmtGo rest .lit args seq
    else if isDigitChar c then fmtGo rest (.inIdx [c] (fmtStep 0 c)) args seq
    else if c = '\x7d' then
      emitPlaceholder args seq false 0 ++ fmtGo rest .lit args (seq + 1)
    else '\x7b' :: c :: fmtGo rest .lit args seq
  | c :: rest, .inIdx raw idx, args, seq =>
    if isDigitChar c then fmtGo rest (.inIdx (raw ++ [c]) (fmtStep idx c)) args seq
    else if c = '\x7d' then
      emitPlaceholder args idx true idx ++ fmtGo rest .lit args seq
    else if c = '\x7b' then '\x7b' :: (raw ++ fmtGo rest .afterBrace args seq)
    else '\x7b' :: (raw ++ (c :: fmtGo rest .lit args seq))

/-- Entry point `fmt_build(out, fmt, args...)` with `out` initially empty, `next_seq = 0`;
`args` are the arguments as the byte strings `append_one` renders them to. -/
def fmtBuild (fmt : List Char) (args : List (List Char)) : List Char :=
  fmtGo fmt .lit args 0

/-- The per-byte escape loop of `json_mode_emit` in `flush_once_batch`:
`'"'` and `'\'` get a `'\'` prefix; newline, carriage return and tab
become `\n`, `\r`, `\t`; every other byte is copied. -/
def jsonEscape : List Char → List Char
  | [] => []
  | c :: cs =>
    (if c = '"' ∨ c = '\\' then ['\\', c]
     else if c = '\n' then ['\\', 'n']
     else if c = '\r' then ['\\', 'r']
     else if c = '\t' then ['\\', 't']
     else [c]) ++ jsonEscape cs

/-- Escaping of one message byte as the specification words it: `"` and
`\` prefixed by `\`, newline replaced by the two characters `\n`,
carriage return by `\r`, tab by `\t`, every other byte verbatim.  Stated
separately from `jsonEscape` so that the code's loop can be compared
against the specification's wording. -/
def specEscapeChar (c : Char) : List Char :=
  if c = '"' then ['\\', '"']
  else if c = '\\' then ['\\', '\\']
  else if c = '\n' then ['\\', 'n']
  else if c = '\r' then ['\\', 'r']
  else if c = '\t' then ['\\', 't']
  else [c]

/-- The specification's escaping applied to a whole message. -/
def specEscape (msg : List Char) : List Char := (msg.map specEscapeChar).flatten

/-- The line built by `json_mode_emit` for one record, given the already
formatted timestamp string `ts` (from `build_timestamp_string`), the
thread id printed with `snprintf("%u", ...)`, the level letter and the
message bytes. -/
def jsonModeEmit (ts : List Char) (tid : Nat) (lvl : Level) (msg : List Char) : List Char :=
  ("\x7b\"time\":\"").data ++ ts
    ++ ("\",\"thread\":").data ++ (Nat.repr tid).data
    ++ (",\"level\":\"").data ++ [levelChar lvl]
    ++ ("\",\"msg\":\"").data ++ jsonEscape msg
    ++ ("\"\x7d\n").data

/-- Sink record `struct Sink` from `Logger.h`: descriptor, configured path (null =
`none`), byte counter, color flag. -/
structure Sink where
  fd : Nat
  path : Option String
  bytes_written : Nat
  color_enabled : Bool
deriving DecidableEq

/-- Configuration record `struct ULogInit` from `Logger.h`, with its field defaults. -/
structure ULogInit where
  trace_path : Option String := none
  debug_path : Option String := none
  info_path : Option String := none
  warn_path : Option String := none
  error_path : Option String := none
  critical_path : Option String := none
  fatal_path : Option String := none
  flush_interval_ns : Nat := 2000000
  queue_capacity : Nat := 16384
  batch_size : Nat := 512
  enable_color_stdout : Bool := true
  max_file_size_bytes : Nat := 0
  max_files : Nat := 3
  json_mode : Bool := false
  track_metrics : Bool := false

/-- The file-system and terminal interface the logger consumes:
`open(path, O_CREAT | O_APPEND | O_WRONLY, 0644)` returning a descriptor
or failing, and `isatty(fd)`. -/
structure Env where
  openFile : String → Option Nat
  isatty : Nat → Bool

/-- The path argument `init_internal` passes to `init_sink` for each
level; `Critical` and `Fatal` fall back to `error_path`
(`cfg.critical_path ? cfg.critical_path : cfg.error_path`). -/
def effectivePath (cfg : ULogInit) : Level → Option String
  | .Trace => cfg.trace_path
  | .Debug => cfg.debug_path
  | .Info => cfg.info_path
  | .Warn => cfg.warn_path
  | .Error => cfg.error_path
  | .Critical => match cfg.critical_path with
    | some p => some p
    | none => cfg.error_path
  | .Fatal => match cfg.fatal_path with
    | some p => some p
    | none => cfg.error_path

/-- The `base_fd` computed at the top of `init_internal`: the descriptor
obtained by opening `info_path` when it is set and the open succeeds,
otherwise stdout (fd 1). -/
def baseFd (cfg : ULogInit) (env : Env) : Nat :=
  match cfg.info_path with
  | some p =>
    match env.openFile p with
    | some fd => fd
    | none => 1
  | none => 1

/-- Helper `open_or_fallback(path, fallback_fd)`: null path or failed open give
the fallback descriptor. -/
def openOrFallback (env : Env) (path : Option String) (fallbackFd : Nat) : Nat :=
  match path with
  | none => fallbackFd
  | some p =>
    match env.openFile p with
    | some fd => fd
    | none => fallbackFd

/-- The `init_sink` lambda of `init_internal` applied to each level: the
sink table produced by `init_internal` (the real code computes `base_fd`
once; the environment is a pure function, so recomputing it is
equal). -/
def initSinks (cfg : ULogInit) (env : Env) (lvl : Level) : Sink :=
  let fd := openOrFallback env (effectivePath cfg lvl) (baseFd cfg env)
  { fd := fd
    path := effectivePath cfg lvl
    bytes_written := 0
    color_enabled := cfg.enable_color_stdout && env.isatty fd }

/-- Names of the files `rotate_files` manipulates, relative to one sink's
non-null `path`: `none` is `path` itself, `some i` is `path.<i>`
(`make_name(i)` appends `"."` and the decimal of `i`, so distinct
indices give distinct names and none of them equals `path`). -/
def FS : Type := Option Nat → Option Nat

/-- Syscall `unlink(name)`: the file disappears; errors are ignored. -/
def fsUnlink (fs : FS) (k : Option Nat) : FS :=
  fun x => if x = k then none else fs x

/-- Syscall `rename(src, dst)`: when `src` exists it replaces `dst` and `src`
disappears; when `src` does not exist the call fails and changes
nothing (the code ignores the error). -/
def fsRename (fs : FS) (src dst : Option Nat) : FS :=
  if fs src = none then fs
  else fun x => if x = dst then fs src else if x = src then none else fs x

/-- The descending rename loop of `rotate_files`:
`for (i = max_files - 2; i >= 1; --i) rename(path.<i>, path.<i+1>)`.
`renameLoop fs i` performs the renames for indices `i, i-1, ..., 1`. -/
def renameLoop : FS → Nat → FS
  | fs, 0 => fs
  | fs, i + 1 => renameLoop (fsRename fs (some (i + 1)) (some (i + 2))) i

/-- Procedure `Logger::rotate_files(path, max_files)` on the file system, for a
non-null `path` (the null-path early return is the caller's guard in
`maybe_rotate_sink`): nothing for `max_files == 0`; for `max_files == 1`
unlink `path.1` and rename `path` to it; otherwise unlink the oldest
backup `path.<max_files-1>`, shift the others up by one, oldest first,
and finally rename `path` to `path.1`. -/
def rotateFiles (fs : FS) (maxFiles : Nat) : FS :=
  if maxFiles = 0 then fs
  else if maxFiles = 1 then fsRename (fsUnlink fs (some 1)) none (some 1)
  else
    let fs1 := fsUnlink fs (some (maxFiles - 1))
    let fs2 := renameLoop fs1 (maxFiles - 2)
    fsRename fs2 none (some 1)

/-- Result of `maybe_rotate_sink`: the file system, the sink, and whether
the rotation branch ran. -/
structure RotateResult where
  fs : FS
  sink : Sink
  rotated : Bool

/-- Procedure `Logger::maybe_rotate_sink(idx, incoming_bytes)` acting on one sink:
return unchanged when the path is null or `max_file_size_bytes_ == 0` or
`bytes_written + incoming < max_file_size_bytes_`; otherwise fsync and
close the old descriptor (not modelled), run `rotate_files`, reopen the
path (falling back to stdout and clearing the path on failure; the
`O_CREAT` recreation of `path` is not tracked in `FS`), zero the byte
counter and recompute the color flag from `isatty(new_fd)` alone. -/
def maybeRotateSink (env : Env) (maxFileSizeBytes : Nat) (maxFiles : Nat) (fs : FS)
    (s : Sink) (incoming : Nat) : RotateResult :=
  match s.path with
  | none => ⟨fs, s, false⟩
  | some p =>
    if maxFileSizeBytes = 0 then ⟨fs, s, false⟩
    else if s.bytes_written + incoming < maxFileSizeBytes then ⟨fs, s, false⟩
    else
      let fs' := rotateFiles fs maxFiles
      match env.openFile p with
      | some fd =>
        ⟨fs', { fd := fd, path := some p, bytes_written := 0,
                color_enabled := env.isatty fd }, true⟩
      | none =>
        ⟨fs', { fd := 1, path := none, bytes_written := 0,
                color_enabled := env.isatty 1 }, true⟩

/-- State of the logger's two record queues and the fields
`enqueue_with_overflow` and `shutdown_internal` read or write.  `mpmc`
models the bounded MPMC ring by its contract (`try_enqueue` succeeds
exactly when a slot is free, capacity `cap`, FIFO); `fallback` models
the unbounded mutex-guarded `fallback_queue_`.  Sinks are untouched by
the produce path and are kept separately. -/
structure LoggerState where
  cap : Nat
  batchSize : Nat
  mpmc : List LogEntry
  fallback : List LogEntry
  metricOverflows : Nat
  trackMetrics : Bool
  shuttingDown : Bool
  flusherStarted : Bool
deriving DecidableEq

/-- Queue effect of one `flush_once_batch()` call:
`n = queue_.try_dequeue_bulk(tmp, batch_size_)` removes up to
`batch_size_` records from the front of the MPMC ring; when `n` is short
of the batch, the flusher takes the fallback mutex and tops up from the
fallback queue.  Formatting and `write` do not touch the queues. -/
def flushOnceBatchQueues (st : LoggerState) : LoggerState :=
  let n := min st.batchSize st.mpmc.length
  if n < st.batchSize then
    { st with mpmc := st.mpmc.drop n, fallback := st.fallback.drop (st.batchSize - n) }
  else
    { st with mpmc := st.mpmc.drop n }

/-- Produce path `Logger::enqueue_with_overflow` from the current `Logger.h` (lines
120-147), at queue granularity, with the record already assembled
(timestamp, thread id and `utf8_safe_size` truncation are modelled by
`storedMsg`): return if the logger is absent or shutting down; try the
MPMC ring; on success, or after falling back, synchronously flush a
batch when the flush task has not started; on MPMC refusal, bump the
overflow metric when `track_metrics_` and append the record to the
fallback queue under the fallback mutex.  No per-thread overflow ring
appears in this path. -/
def enqueueWithOverflow (st : LoggerState) (e : LogEntry) : LoggerState :=
  if st.shuttingDown then st
  else if st.mpmc.length < st.cap then
    let st1 := { st with mpmc := st.mpmc ++ [e] }
    if st1.flusherStarted then st1 else flushOnceBatchQueues st1
  else
    let st1 := { st with
      metricOverflows :=
        if st.trackMetrics then st.metricOverflows + 1 else st.metricOverflows
      fallback := st.fallback ++ [e] }
    if st1.flusherStarted then st1 else flushOnceBatchQueues st1

/-- The drain loop of `shutdown_internal` (current translation unit):
repeatedly `flush_once_batch()`, then break once the MPMC ring and, under
its mutex, the fallback queue both report empty.  The loop is given as
fuel-indexed iteration; the theorems show that fuel equal to the number
of queued records suffices. -/
def drainLoop : Nat → LoggerState → LoggerState
  | 0, st => st
  | fuel + 1, st =>
    let st' := flushOnceBatchQueues st
    if st'.mpmc = [] ∧ st'.fallback = [] then st' else drainLoop fuel st'

/-- Lifecycle operation `Logger::shutdown_internal` on the queue state: set the shutdown
flag, then drain (closing of descriptors is outside the queue model). -/
def shutdownInternal (fuel : Nat) (st : LoggerState) : LoggerState :=
  drainLoop fuel { st with shuttingDown := true }

/-- Ring `ThreadOverflowRing<N>` from the older produce-path variant
(`part_005`): fixed-capacity single-producer/single-consumer ring with
`head`/`tail` indices modulo `N`. -/
structure OverflowRing where
  cap : Nat
  buf : Nat → LogEntry
  head : Nat
  tail : Nat

/-- Operation `ThreadOverflowRing::try_push`: fails exactly when advancing `tail`
would collide with `head`; otherwise stores the record at `tail`. -/
def OverflowRing.tryPush (r : OverflowRing) (e : LogEntry) : Option OverflowRing :=
  let next := (r.tail + 1) % r.cap
  if next = r.head then none
  else some { r with buf := fun i => if i = r.tail then e else r.buf i, tail := next }

/-! Concrete inputs used by the claim theorems, their witnesses and
counterexamples. -/

/-- A concrete record. -/
def entA : LogEntry := { ts_ms := 0, thread_id := 1, level := .Info, msg := [] }

/-- A second concrete record. -/
def entB : LogEntry := { ts_ms := 5, thread_id := 2, level := .Warn, msg := ['a'] }

/-- A logger state whose MPMC ring is full (capacity 1, one record) with
an empty fallback queue, flush task running, not shutting down. -/
def stC1 : LoggerState :=
  { cap := 1, batchSize := 1, mpmc := [entA], fallback := [],
    metricOverflows := 0, trackMetrics := false, shuttingDown := false,
    flusherStarted := true }

/-- An empty per-thread overflow ring with the 64 slots the older produce
path declares (`thread_local ThreadOverflowRing<64> overflow`). -/
def ringC1 : OverflowRing := { cap := 64, buf := fun _ => entA, head := 0, tail := 0 }

/-- The configuration of the documentation's own routing example:
`trace_path` absent, `info_path` set. -/
def cfgC2 : ULogInit := { info_path := some ("./service.log") }

/-- An environment where opening `./service.log` succeeds with
descriptor 5 and nothing is a terminal. -/
def envC2 : Env :=
  { openFile := fun p => if p = ("./service.log") then some 5 else none
    isatty := fun _ => false }

/-- The two bytes of `"é"` (U+00E9 in UTF-8): a valid two-byte
sequence. -/
def eAcute : List Char := [Char.ofNat 0xC3, Char.ofNat 0xA9]

/-- A logger state with records in both queues, used to run the shutdown
drain. -/
def stC4 : LoggerState :=
  { cap := 4, batchSize := 2, mpmc := [entA, entB, entA], fallback := [entB, entB],
    metricOverflows := 0, trackMetrics := true, shuttingDown := false,
    flusherStarted := true }

/-- A sink whose counter sits 50 bytes below a 100-byte rotation
threshold. -/
def sC5 : Sink := { fd := 3, path := some ("x.log"), bytes_written := 50, color_enabled := false }

/-- An environment where every open succeeds with descriptor 4 and
nothing is a terminal. -/
def envC5 : Env := { openFile := fun _ => some 4, isatty := fun _ => false }

/-- An empty file system. -/
def fsEmpty : FS := fun _ => none

/-- A configuration with color globally disabled and the info sink on
`/dev/tty`. -/
def cfgC7 : ULogInit := { info_path := some ("/dev/tty"), enable_color_stdout := false }

/-- An environment where `/dev/tty` opens as descriptor 3, which is a
terminal (and stdout is a terminal too). -/
def envC7 : Env :=
  { openFile := fun p => if p = ("/dev/tty") then some 3 else none
    isatty := fun fd => fd = 3 || fd = 1 }

/-- A file system holding `path`, `path.1` and `path.2` with distinct
contents, and nothing else: the steady state before a rotation with
`max_files = 3`. -/
def fsC8 : FS := fun k =>
  match k with
  | none => some 10
  | some 1 => some 11
  | some 2 => some 12
  | some _ => none

/-! Theorems. -/

/-- Claim C2: the claim says a level with an absent path gets standard
output regardless of the other paths, in particular independently of
`info_path`.  The code routes absent-path levels to `base_fd`, which is
the descriptor opened for `info_path` when that is set and opens
successfully — here descriptor 5, not stdout.  This also contradicts the
repository's own `docs/config.md` routing example. -/
theorem c2_absent_path_gets_info_fd :
    effectivePath cfgC2 .Trace = none ∧
    (initSinks cfgC2 envC2 .Trace).fd = 5 ∧
    (initSinks cfgC2 envC2 .Trace).fd ≠ 1 := by
  decide

/-- Claim C3: the claim (and the repository README) says a valid-UTF-8
rendering of at most `MAX_LINE` bytes is stored in full and truncation
happens only on a code-point boundary.  `utf8_safe_size` steps back over
the trailing continuation bytes but keeps the lead byte, so the
two-byte, valid, far-under-limit message `"é"` is stored as the single
dangling lead byte `0xC3`, which is not valid UTF-8. -/
theorem c3_utf8_truncation_bug :
    utf8Valid eAcute = true ∧
    eAcute.length ≤ kMaxLogLineBytes ∧
    storedMsg eAcute = [Char.ofNat 0xC3] ∧
    utf8Valid (storedMsg eAcute) = false ∧
    storedMsg eAcute ≠ eAcute := by
  decide

/-- Claim C6, counterexample: formatting the template `x={{}}` with one
argument yields `x={}}`, not the claimed `x={}` — after the `{{` escape
the two closing braces are ordinary literal characters. -/
theorem c6_counterexample :
    fmtBuild (("x=\x7b\x7b\x7d\x7d").data) [("1").data] = ("x=\x7b\x7d\x7d").data ∧
    fmtBuild (("x=\x7b\x7b\x7d\x7d").data) [("1").data] ≠ ("x=\x7b\x7d").data := by
  decide

/-- Claim C6, amended: every `{{` met by the scanner emits one literal
`{` and consumes no argument (the argument list and the sequence counter
continue unchanged), but `}}` is no escape, so `x={{}}` with one (unused)
argument renders to `x={}}`. -/
theorem c6_brace_escape :
    (∀ rest args seq,
      fmtGo ('\x7b' :: '\x7b' :: rest) .lit args seq = '\x7b' :: fmtGo rest .lit args seq) ∧
    fmtBuild (("x=\x7b\x7b\x7d\x7d").data) [("1").data] = ("x=\x7b\x7d\x7d").data := by
  refine ⟨fun rest args seq => ?_, by decide⟩
  simp [fmtGo]

/-- Claim C10, counterexample: with no arguments, the placeholder
`{007}` is re-emitted from its parsed index, producing `{7}` — not the
placeholder text itself. -/
theorem c10_counterexample :
    fmtBuild (("\x7b007\x7d").data) [] = ("\x7b7\x7d").data ∧
    fmtBuild (("\x7b007\x7d").data) [] ≠ ("\x7b007\x7d").data := by
  decide

/-- Claim C1, counterexample: with the MPMC ring full (and the logger
live, flusher running), the produce path appends the record to the
global fallback queue even though an empty 64-slot overflow ring — which
the claim says is tried first and would absorb the record — accepts a
push.  The current produce path never consults an overflow ring. -/
theorem c1_counterexample :
    (enqueueWithOverflow stC1 entB).fallback = [entB] ∧
    (ringC1.tryPush entB).isSome = true ∧
    stC1.fallback = [] := by
  exact ⟨by decide, rfl, by decide⟩

/-- Claim C1, amended: when `try_enqueue` fails on a live,
non-shutting-down logger with the flush task running, the producer bumps
the overflow metric when `track_metrics_` is set and appends the record
directly to the mutex-guarded fallback queue; no per-thread overflow
ring exists in this produce path. -/
theorem c1_fallback_direct (st : LoggerState) (e : LogEntry)
    (h1 : st.shuttingDown = false) (h2 : st.flusherStarted = true)
    (h3 : st.cap ≤ st.mpmc.length) :
    enqueueWithOverflow st e
      = { st with
          metricOverflows :=
            if st.trackMetrics then st.metricOverflows + 1 else st.metricOverflows,
          fallback := st.fallback ++ [e] } := by
  have hlt : ¬ st.mpmc.length < st.cap := by omega
  simp [enqueueWithOverflow, h1, h2, hlt]

/-- Claim C1, witness for the amended statement at a concrete full-ring
state. -/
theorem c1_fallback_direct_witness :
    enqueueWithOverflow stC1 entB
      = { stC1 with
          metricOverflows :=
            if stC1.trackMetrics then stC1.metricOverflows + 1 else stC1.metricOverflows,
          fallback := stC1.fallback ++ [entB] } :=
  c1_fallback_direct stC1 entB rfl rfl (by decide)

theorem flushOnceBatchQueues_batchSize (st : LoggerState) :
    (flushOnceBatchQueues st).batchSize = st.batchSize := by
  simp only [flushOnceBatchQueues]
  split <;> rfl

theorem flushOnceBatchQueues_decreases (st : LoggerState) (hbs : 1 ≤ st.batchSize)
    (hne : st.mpmc.length + st.fallback.length ≠ 0) :
    (flushOnceBatchQueues st).mpmc.length + (flushOnceBatchQueues st).fallback.length
      < st.mpmc.length + st.fallback.length := by
  simp only [flushOnceBatchQueues]
  split <;> simp only [List.length_drop] <;> omega

theorem drainLoop_empties : ∀ fuel st, 1 ≤ st.batchSize →
    st.mpmc.length + st.fallback.length ≤ fuel →
    (drainLoop fuel st).mpmc = [] ∧ (drainLoop fuel st).fallback = []
  | 0, st, _, hle => by
    have e1 : st.mpmc = [] := List.length_eq_zero.mp (by omega)
    have e2 : st.fallback = [] := List.length_eq_zero.mp (by omega)
    unfold drainLoop
    exact ⟨e1, e2⟩
  | fuel + 1, st, hbs, hle => by
    simp only [drainLoop]
    split
    · assumption
    · rename_i hcond
      refine drainLoop_empties fuel (flushOnceBatchQueues st) ?_ ?_
      · rw [flushOnceBatchQueues_batchSize]; exact hbs
      · have hne : st.mpmc.length + st.fallback.length ≠ 0 := by
          intro h0
          have e1 : st.mpmc = [] := List.length_eq_zero.mp (by omega)
          have e2 : st.fallback = [] := List.length_eq_zero.mp (by omega)
          exact hcond (by simp [flushOnceBatchQueues, e1, e2])
        have := flushOnceBatchQueues_decreases st hbs hne
        omega

/-- Claim C4: once the shutdown flag is set, `enqueue_with_overflow`
returns before touching queues or counters; and the shutdown drain loop,
which breaks only when the MPMC ring and (under its mutex) the fallback
queue both report empty, leaves both queues empty — fuel covering the
number of queued records suffices, since the logger always clamps
`batch_size` to at least 1. -/
theorem c4_shutdown_noop_and_drain :
    (∀ st e, st.shuttingDown = true → enqueueWithOverflow st e = st) ∧
    (∀ st fuel, 1 ≤ st.batchSize → st.mpmc.length + st.fallback.length ≤ fuel →
      (shutdownInternal fuel st).mpmc = [] ∧ (shutdownInternal fuel st).fallback = []) := by
  constructor
  · intro st e h
    simp [enqueueWithOverflow, h]
  · intro st fuel hbs hle
    exact drainLoop_empties fuel { st with shuttingDown := true } hbs hle

/-- Claim C4, witness: a concrete run of the shutdown drain on a state
with three ring records and two fallback records, plus a post-flag
produce call that changes nothing. -/
theorem c4_witness :
    (shutdownInternal 5 stC4).mpmc = [] ∧ (shutdownInternal 5 stC4).fallback = [] ∧
    enqueueWithOverflow { stC4 with shuttingDown := true } entA
      = { stC4 with shuttingDown := true } := by
  refine ⟨(c4_shutdown_noop_and_drain.2 stC4 5 ?_ ?_).1,
    (c4_shutdown_noop_and_drain.2 stC4 5 ?_ ?_).2,
    c4_shutdown_noop_and_drain.1 _ entA rfl⟩ <;> decide

/-- Claim C5, counterexample: at `bytes_written = 50`, `incoming = 50`,
`max_file_size_bytes = 100` the sum equals the threshold, the claimed
strictly-greater condition is false, yet the code rotates (it tests
`next_size < max` for the early return) and resets the sink. -/
theorem c5_counterexample :
    (maybeRotateSink envC5 100 3 fsEmpty sC5 50).rotated = true ∧
    ¬ (sC5.bytes_written + 50 > 100) ∧
    (maybeRotateSink envC5 100 3 fsEmpty sC5 50).sink ≠ sC5 := by
  exact ⟨rfl, by decide, by decide⟩

/-- Claim C5, amended: rotation of a level's sink occurs if and only if
the sink has a non-null path, `max_file_size_bytes > 0`, and
`bytes_written + incoming >= max_file_size_bytes` (greater **or equal**,
not strictly greater); when the condition fails the sink and the file
system are returned unchanged. -/
theorem c5_rotation_threshold (env : Env) (maxB maxF : Nat) (fs : FS) (s : Sink)
    (inc : Nat) :
    ((maybeRotateSink env maxB maxF fs s inc).rotated = true ↔
      (s.path ≠ none ∧ maxB ≠ 0 ∧ maxB ≤ s.bytes_written + inc)) ∧
    ((maybeRotateSink env maxB maxF fs s inc).rotated = false →
      (maybeRotateSink env maxB maxF fs s inc).sink = s ∧
      (maybeRotateSink env maxB maxF fs s inc).fs = fs) := by
  rcases hp : s.path with _ | p
  · simp [maybeRotateSink, hp]
  · by_cases h0 : maxB = 0
    · simp [maybeRotateSink, hp, h0]
    · by_cases hlt : s.bytes_written + inc < maxB
      · simp [maybeRotateSink, hp, h0, hlt]
      · cases henv : env.openFile p <;>
          simp [maybeRotateSink, hp, h0, hlt, henv] <;>
          omega

/-- Claim C5, witness for the amended statement: below the threshold
(`50 + 50 < 200`) nothing rotates and the sink and file system come back
unchanged. -/
theorem c5_rotation_threshold_witness :
    (maybeRotateSink envC5 200 3 fsEmpty sC5 50).sink = sC5 ∧
    (maybeRotateSink envC5 200 3 fsEmpty sC5 50).fs = fsEmpty :=
  (c5_rotation_threshold envC5 200 3 fsEmpty sC5 50).2 (by decide)

/-- Claim C7, counterexample: color globally disabled, info sink on
`/dev/tty`.  After init the invariant holds (flag false), but the first
rotation recomputes the flag from `isatty(new_fd)` alone — the config
bit is not even stored in the Logger — so the flag turns true while
`enable_color_stdout` is false. -/
theorem c7_counterexample :
    cfgC7.enable_color_stdout = false ∧
    (initSinks cfgC7 envC7 .Info).color_enabled = false ∧
    (maybeRotateSink envC7 100 3 fsEmpty (initSinks cfgC7 envC7 .Info) 100).sink.color_enabled
      = true := by
  decide

/-- Claim C7, amended: at init every sink's color flag is exactly
`enable_color_stdout && isatty(fd)`, but every rotation recomputes it as
`isatty(new_fd)` alone, without consulting `enable_color_stdout`; the
claimed invariant holds after init and not after rotation. -/
theorem c7_color_flag :
    (∀ cfg env lvl, (initSinks cfg env lvl).color_enabled
        = (cfg.enable_color_stdout && env.isatty ((initSinks cfg env lvl).fd))) ∧
    (∀ env maxB maxF fs s inc,
      (maybeRotateSink env maxB maxF fs s inc).rotated = true →
      (maybeRotateSink env maxB maxF fs s inc).sink.color_enabled
        = env.isatty ((maybeRotateSink env maxB maxF fs s inc).sink.fd)) := by
  constructor
  · intro cfg env lvl
    simp [initSinks]
  · intro env maxB maxF fs s inc h
    rcases hp : s.path with _ | p
    · simp [maybeRotateSink, hp] at h
    · by_cases h0 : maxB = 0
      · simp [maybeRotateSink, hp, h0] at h
      · by_cases hlt : s.bytes_written + inc < maxB
        · simp [maybeRotateSink, hp, h0, hlt] at h
        · cases henv : env.openFile p <;>
            simp [maybeRotateSink, hp, h0, hlt, henv]

/-- Claim C7, witness for the amended statement: the init equality at
the concrete configuration and the rotation equality at the concrete
rotating sink. -/
theorem c7_color_flag_witness :
    (initSinks cfgC7 envC7 .Info).color_enabled
      = (cfgC7.enable_color_stdout && envC7.isatty ((initSinks cfgC7 envC7 .Info).fd)) ∧
    (maybeRotateSink envC7 100 3 fsEmpty (initSinks cfgC7 envC7 .Info) 100).sink.color_enabled
      = envC7.isatty
          ((maybeRotateSink envC7 100 3 fsEmpty (initSinks cfgC7 envC7 .Info) 100).sink.fd) :=
  ⟨c7_color_flag.1 cfgC7 envC7 .Info,
   c7_color_flag.2 envC7 100 3 fsEmpty (initSinks cfgC7 envC7 .Info) 100 (by decide)⟩

theorem fsUnlink_apply (fs : FS) (k x : Option Nat) :
    fsUnlink fs k x = if x = k then none else fs x := rfl

theorem fsRename_apply (fs : FS) (src dst x : Option Nat) :
    fsRename fs src dst x
      = if fs src = none then fs x
        else if x = dst then fs src else if x = src then none else fs x := by
  unfold fsRename
  split <;> rfl

theorem renameLoop_none : ∀ i (fs : FS), renameLoop fs i none = fs none
  | 0, fs => rfl
  | i + 1, fs => by
    rw [renameLoop, renameLoop_none i]
    rw [fsRename_apply]
    split <;> simp

theorem renameLoop_high : ∀ i (fs : FS) j, i + 2 ≤ j →
    renameLoop fs i (some j) = fs (some j)
  | 0, fs, j, _ => rfl
  | i + 1, fs, j, hj => by
    rw [renameLoop, renameLoop_high i _ j (by omega)]
    rw [fsRename_apply]
    have h1 : some j ≠ some (i + 2) := by simp; omega
    have h2 : some j ≠ some (i + 1) := by simp; omega
    split <;> simp [h1, h2]

theorem renameLoop_zero : ∀ i (fs : FS), renameLoop fs i (some 0) = fs (some 0)
  | 0, fs => rfl
  | i + 1, fs => by
    rw [renameLoop, renameLoop_zero i]
    rw [fsRename_apply]
    split <;> simp

theorem renameLoop_shift : ∀ i (fs : FS),
    (∀ j, 1 ≤ j → j ≤ i → fs (some j) ≠ none) →
    ∀ j, 1 ≤ j → j ≤ i → renameLoop fs i (some (j + 1)) = fs (some j)
  | 0, _, _, _, h1, h2 => by omega
  | i + 1, fs, hpres, j, h1, h2 => by
    rw [renameLoop]
    have hsrc : fs (some (i + 1)) ≠ none := hpres (i + 1) (by omega) (by omega)
    have hg : ∀ x, x ≠ some (i + 2) → x ≠ some (i + 1) →
        fsRename fs (some (i + 1)) (some (i + 2)) x = fs x := by
      intro x hx1 hx2
      rw [fsRename_apply]
      simp [hx1, hx2, hsrc]
    by_cases hj : j = i + 1
    · subst hj
      rw [renameLoop_high i _ (i + 2) (by omega)]
      rw [fsRename_apply]
      simp [hsrc]
    · have hji : j ≤ i := by omega
      have hpres2 : ∀ j2, 1 ≤ j2 → j2 ≤ i →
          fsRename fs (some (i + 1)) (some (i + 2)) (some j2) ≠ none := by
        intro j2 ha hb
        rw [hg (some j2) (by simp; omega) (by simp; omega)]
        exact hpres j2 ha (by omega)
      rw [renameLoop_shift i _ hpres2 j h1 hji]
      exact hg (some j) (by simp; omega) (by simp; omega)

/-- Claim C8: for `max_files = K >= 2`, `rotate_files` unlinks
`path.<K-1>` first, shifts `path.<i>` to `path.<i+1>` for `i` from
`K-2` down to `1`, then renames `path` to `path.1`.  Starting from a
state with `path` and backups `path.1 .. path.<K-1>` present and
nothing at or above index `K`, the result holds the old `path` at
`path.1` (newest), the old `path.<j-1>` at each `path.<j>` up to
`K-1`, no `path` (the caller reopens it), and nothing at `path.<K>` or
beyond — no `path.<K>` is ever created. -/
theorem c8_rotate_files (K : Nat) (fs : FS) (hK : 2 ≤ K)
    (hpath : fs none ≠ none)
    (hpres : ∀ j, 1 ≤ j → j ≤ K - 1 → fs (some j) ≠ none)
    (habs : ∀ j, K ≤ j → fs (some j) = none) :
    rotateFiles fs K (some 1) = fs none ∧
    (∀ j, 2 ≤ j → j ≤ K - 1 → rotateFiles fs K (some j) = fs (some (j - 1))) ∧
    rotateFiles fs K none = none ∧
    (∀ j, K ≤ j → rotateFiles fs K (some j) = none) ∧
    rotateFiles fs K (some 0) = fs (some 0) := by
  have hK0 : ¬ K = 0 := by omega
  have hK1 : ¬ K = 1 := by omega
  simp only [rotateFiles, hK0, hK1, if_false]
  set fs1 := fsUnlink fs (some (K - 1)) with hfs1
  set fs2 := renameLoop fs1 (K - 2) with hfs2
  have hfs1app : ∀ x, x ≠ some (K - 1) → fs1 x = fs x := by
    intro x hx
    rw [hfs1, fsUnlink_apply]
    simp [hx]
  have hfs2none : fs2 none = fs none := by
    rw [hfs2, renameLoop_none, hfs1app none (by simp)]
  have hsrc : fs2 none ≠ none := by rw [hfs2none]; exact hpath
  refine ⟨?_, ?_, ?_, ?_, ?_⟩
  · rw [fsRename_apply, if_neg hsrc, if_pos rfl]
    exact hfs2none
  · intro j h2 hK1j
    have hne1 : (some j : Option Nat) ≠ some 1 := by simp; omega
    rw [fsRename_apply, if_neg hsrc, if_neg hne1,
      if_neg (by simp : (some j : Option Nat) ≠ none)]
    have hpres1 : ∀ j2, 1 ≤ j2 → j2 ≤ K - 2 → fs1 (some j2) ≠ none := by
      intro j2 ha hb
      rw [hfs1app (some j2) (by simp; omega)]
      exact hpres j2 ha (by omega)
    have hj : j = (j - 1) + 1 := by omega
    rw [hfs2, hj, renameLoop_shift (K - 2) fs1 hpres1 (j - 1) (by omega) (by omega)]
    exact hfs1app (some (j - 1)) (by simp; omega)
  · rw [fsRename_apply, if_neg hsrc,
      if_neg (by simp : (none : Option Nat) ≠ some 1), if_pos rfl]
  · intro j hKj
    have hne1 : (some j : Option Nat) ≠ some 1 := by simp; omega
    rw [fsRename_apply, if_neg hsrc, if_neg hne1,
      if_neg (by simp : (some j : Option Nat) ≠ none)]
    rw [hfs2, renameLoop_high (K - 2) fs1 j (by omega)]
    rw [hfs1app (some j) (by simp; omega)]
    exact habs j hKj
  · rw [fsRename_apply, if_neg hsrc,
      if_neg (by simp : (some 0 : Option Nat) ≠ some 1),
      if_neg (by simp : (some 0 : Option Nat) ≠ none)]
    rw [hfs2, renameLoop_zero]
    exact hfs1app (some 0) (by simp; omega)

/-- Claim C8, witness: the concrete rotation with `max_files = 3` on a
file system holding `path`, `path.1`, `path.2`: the old `path` lands at
`path.1`, the old `path.1` at `path.2`, `path` is gone and no `path.3`
appears. -/
theorem c8_rotate_files_witness :
    rotateFiles fsC8 3 (some 1) = fsC8 none ∧
    rotateFiles fsC8 3 (some 2) = fsC8 (some 1) ∧
    rotateFiles fsC8 3 none = none ∧
    rotateFiles fsC8 3 (some 3) = none := by
  have h := c8_rotate_files 3 fsC8 (by omega) (by decide)
    (by
      intro j h1 h2
      interval_cases j <;> decide)
    (by
      intro j hj
      rcases j with _ | _ | _ | j
      · omega
      · omega
      · omega
      · rfl)
  exact ⟨h.1, h.2.1 2 (by omega) (by omega), h.2.2.1, h.2.2.2.1 3 (by omega)⟩

theorem digitChar_ne_newline (n : Nat) (hn : n < 10) : Nat.digitChar n ≠ '\n' := by
  interval_cases n <;> decide

theorem toDigitsCore_ne_newline : ∀ fuel n ds, (∀ c ∈ ds, c ≠ '\n') →
    ∀ c ∈ Nat.toDigitsCore 10 fuel n ds, c ≠ '\n' := by
  intro fuel
  induction fuel with
  | zero =>
    intro n ds h
    simpa [Nat.toDigitsCore] using h
  | succ fuel ih =>
    intro n ds h
    simp only [Nat.toDigitsCore]
    have hcons : ∀ c ∈ Nat.digitChar (n % 10) :: ds, c ≠ '\n' := by
      intro c hc
      rcases List.mem_cons.mp hc with rfl | hmem
      · exact digitChar_ne_newline _ (Nat.mod_lt _ (by omega))
      · exact h c hmem
    split
    · exact hcons
    · exact ih (n / 10) _ hcons

theorem repr_no_newline (n : Nat) : '\n' ∉ (Nat.repr n).data := by
  intro hmem
  have h : ∀ c ∈ Nat.toDigitsCore 10 (n + 1) n [], c ≠ '\n' :=
    toDigitsCore_ne_newline (n + 1) n [] (by simp)
  exact h _ hmem rfl

theorem levelChar_ne_newline (lvl : Level) : levelChar lvl ≠ '\n' := by
  cases lvl <;> decide

theorem jsonEscape_eq_specEscape : ∀ msg, jsonEscape msg = specEscape msg := by
  intro msg
  induction msg with
  | nil => rfl
  | cons c cs ih =>
    simp only [jsonEscape, specEscape, List.map_cons, List.flatten_cons] at *
    rw [ih]
    congr 1
    by_cases h1 : c = '"'
    · simp [specEscapeChar, h1]
    · by_cases h2 : c = '\\'
      · simp [specEscapeChar, h1, h2]
      · simp [specEscapeChar, h1, h2]

theorem specEscape_no_newline : ∀ msg, '\n' ∉ specEscape msg := by
  intro msg
  induction msg with
  | nil => simp [specEscape]
  | cons c cs ih =>
    simp only [specEscape, List.map_cons, List.flatten_cons] at *
    intro hmem
    rcases List.mem_append.mp hmem with h | h
    · revert h
      simp only [specEscapeChar]
      split_ifs with h1 h2 h3 h4 h5 <;> simp_all
      exact fun hh => h3 hh.symm
    · exact ih h

/-- Claim C9: in JSON mode every record becomes one line — a body with
no newline byte, closed by one `'\n'` — of the exact claimed shape, with
the message escaped precisely as the claim words it (`"` and `\` get a
backslash prefix, newline, carriage return and tab become `\n`, `\r`,
`\t`, everything else verbatim). -/
theorem c9_json_line (ts : List Char) (tid : Nat) (lvl : Level) (msg : List Char)
    (hts : '\n' ∉ ts) :
    ∃ body,
      jsonModeEmit ts tid lvl msg = body ++ ['\n'] ∧
      '\n' ∉ body ∧
      body = ("\x7b\"time\":\"").data ++ ts ++ ("\",\"thread\":").data
        ++ (Nat.repr tid).data ++ (",\"level\":\"").data ++ [levelChar lvl]
        ++ ("\",\"msg\":\"").data ++ specEscape msg ++ ("\"\x7d").data := by
  refine ⟨_, ?_, ?_, rfl⟩
  · have htail : ("\"\x7d\n").data = ("\"\x7d").data ++ ['\n'] := by decide
    simp [jsonModeEmit, jsonEscape_eq_specEscape, htail, List.append_assoc]
  · repeat' apply List.not_mem_append
    all_goals first
      | exact hts
      | exact repr_no_newline tid
      | exact specEscape_no_newline msg
      | decide
      | simpa using Ne.symm (levelChar_ne_newline lvl)

/-- Claim C9, witness: the scenario line `info("a\"b\nc\td")` at a
concrete timestamp string. -/
theorem c9_json_line_witness :
    ∃ body,
      jsonModeEmit (("2024-10-27 05:13:20.000").data) 1 .Info (("a\"b\nc\td").data)
        = body ++ ['\n'] ∧
      '\n' ∉ body ∧
      body = ("\x7b\"time\":\"").data ++ ("2024-10-27 05:13:20.000").data
        ++ ("\",\"thread\":").data ++ (Nat.repr 1).data ++ (",\"level\":\"").data
        ++ [levelChar .Info] ++ ("\",\"msg\":\"").data
        ++ specEscape (("a\"b\nc\td").data) ++ ("\"\x7d").data :=
  c9_json_line (("2024-10-27 05:13:20.000").data) 1 .Info (("a\"b\nc\td").data) (by decide)

theorem fmtGo_inIdx_digits : ∀ (ds raw : List Char) (acc : Nat) (rest : List Char)
    (args : List (List Char)) (seq : Nat), (∀ c ∈ ds, isDigitChar c = true) →
    fmtGo (ds ++ '\x7d' :: rest) (.inIdx raw acc) args seq
      = emitPlaceholder args (ds.foldl fmtStep acc) true (ds.foldl fmtStep acc)
          ++ fmtGo rest .lit args seq
  | [], raw, acc, rest, args, seq, _ => by
    have h7 : isDigitChar '\x7d' = false := by decide
    simp [fmtGo, h7]
  | d :: ds, raw, acc, rest, args, seq, h => by
    have hd : isDigitChar d = true := h d (by simp)
    simp only [List.cons_append, fmtGo, hd, if_true, List.foldl_cons]
    exact fmtGo_inIdx_digits ds (raw ++ [d]) (fmtStep acc d) rest args seq
      (fun c hc => h c (by simp [hc]))

/-- Claim C10, amended: when a placeholder's selected index is at or
beyond the number of supplied arguments, the formatter emits `{}` for an
implicit placeholder and, for an explicit one, `'{'` followed by the
canonical decimal of the parsed index (the digit run folded modulo
2^64, as `size_t` arithmetic and `snprintf("%zu", idx)` do) and `'}'` —
identical to the placeholder text except for redundant leading zeros or
wraparound — and formatting continues with the rest of the template;
nothing after the placeholder is dropped and no failure occurs. -/
theorem c10_missing_argument :
    (∀ rest args seq, args.length ≤ seq →
      fmtGo ('\x7b' :: '\x7d' :: rest) .lit args seq
        = '\x7b' :: '\x7d' :: fmtGo rest .lit args (seq + 1)) ∧
    (∀ ds rest args seq, ds ≠ [] → (∀ c ∈ ds, isDigitChar c = true) →
      args.length ≤ digitsVal ds →
      fmtGo ('\x7b' :: (ds ++ '\x7d' :: rest)) .lit args seq
        = '\x7b' :: ((Nat.repr (digitsVal ds)).data ++ '\x7d' :: fmtGo rest .lit args seq)) := by
  constructor
  · intro rest args seq hlen
    have h1 : ¬ ('\x7d' : Char) = '\x7b' := by decide
    have h2 : isDigitChar '\x7d' = false := by decide
    have h3 : ¬ seq < args.length := by omega
    simp [fmtGo, h1, h2, emitPlaceholder, h3]
  · intro ds rest args seq hne hdig hlen
    rcases ds with _ | ⟨d, ds⟩
    · exact absurd rfl hne
    have hd : isDigitChar d = true := hdig d (by simp)
    have hdb : ¬ d = '\x7b' := by
      intro hh
      rw [hh] at hd
      exact absurd hd (by decide)
    simp only [List.cons_append]
    rw [show fmtGo ('\x7b' :: (d :: (ds ++ '\x7d' :: rest))) .lit args seq
        = fmtGo (d :: (ds ++ '\x7d' :: rest)) .afterBrace args seq from by simp [fmtGo]]
    rw [show fmtGo (d :: (ds ++ '\x7d' :: rest)) .afterBrace args seq
        = fmtGo (ds ++ '\x7d' :: rest) (.inIdx [d] (fmtStep 0 d)) args seq from by
      simp [fmtGo, hdb, hd]]
    rw [fmtGo_inIdx_digits ds [d] (fmtStep 0 d) rest args seq
      (fun c hc => hdig c (by simp [hc]))]
    have hv : digitsVal (d :: ds) = ds.foldl fmtStep (fmtStep 0 d) := rfl
    rw [← hv]
    have hnolt : ¬ digitsVal (d :: ds) < args.length := by omega
    simp [emitPlaceholder, hnolt, List.append_assoc]

/-- Claim C10, witness for the amended statement: an implicit
placeholder with no arguments, and the explicit `{07}` with no
arguments, whose digit run parses to 7. -/
theorem c10_missing_argument_witness :
    fmtGo ('\x7b' :: '\x7d' :: []) .lit [] 0 = '\x7b' :: '\x7d' :: fmtGo [] .lit [] 1 ∧
    fmtGo ('\x7b' :: (['0', '7'] ++ '\x7d' :: [])) .lit [] 0
      = '\x7b' :: ((Nat.repr (digitsVal ['0', '7'])).data ++ '\x7d' :: fmtGo [] .lit [] 0) :=
  ⟨c10_missing_argument.1 [] [] 0 (by decide),
   c10_missing_argument.2 ['0', '7'] [] [] 0 (by decide) (by decide) (by decide)⟩

end Ulog
